import Mathlib

/-!
Verification of the MXUser barrier (`lib/lock/ulBarrier.c` of open-vm-tools).

The C file implements a self-regenerating computational barrier built on an
exclusive lock and two condition variables ("wait-channels"), one per
generation context.  We embed the code shallowly:

* machine integers (`uint32`) become `Nat` with explicit reduction
  modulo `2^32` where the code increments/decrements;
* the barrier struct becomes a Lean structure (the per-context condition
  variable pointer is represented by the context's index: each context owns
  exactly one wait-channel, so the index identifies the channel);
* the two atomic sections of `MXUser_EnterBarrier` — the arrival bookkeeping
  done while first holding the lock (lines 237-278) and the exit bookkeeping
  done after the wait/broadcast (lines 280-285) — become two functions,
  `MXUser_EnterBarrier_arrive` and `MXUser_EnterBarrier_exit`;
* allocation and deallocation in `MXUser_CreateBarrier` /
  `MXUser_DestroyBarrier` are recorded as event traces so that leak-freedom
  is provable;
* the concurrent behaviour of `MXUser_EnterBarrier` is a small-step
  transition system over the barrier state plus one phase per thread
  (`SysStep`), whose interleavings model threads racing through the lock.
-/

/-- Number of values of a `uint32`; counters reduce modulo this. -/
def UINT32_CARD : Nat := 4294967296

/-- `uint32` increment (`ptr->count++`): wraps to 0 at `2^32`.  Agrees with
`(n + 1) % UINT32_CARD` on every `uint32` value (`incr32_eq_mod`). -/
def incr32 (n : Nat) : Nat := if n + 1 = UINT32_CARD then 0 else n + 1

/-- `uint32` decrement (`ptr->count--`): wraps to `2^32 - 1` at 0.  Agrees
with `(n + (UINT32_CARD - 1)) % UINT32_CARD` on every `uint32` value
(`decr32_eq_mod`). -/
def decr32 (n : Nat) : Nat := if n = 0 then UINT32_CARD - 1 else n - 1

/-- `MXUSER_BARRIER_SIGNATURE` (0x52524142, 'BARR'). -/
def MXUSER_BARRIER_SIGNATURE : Nat := 0x52524142

/-- `struct MXUserHeader`: the fields `MXUserDumpBarrier` and
`MXUser_DestroyBarrier` touch (dumpFunc/statsFunc are code pointers and are
not modelled as data). -/
structure MXUserHeader where
  signature : Nat
  name : String
  rank : Nat
  deriving DecidableEq, Repr

/-- `struct BarrierContext`.  The `condVar` pointer is not modelled as data:
each context owns exactly one wait-channel, so the context's index (0 or 1)
identifies the channel threads park on / are woken from. -/
structure BarrierContext where
  count : Nat
  deriving DecidableEq, Repr

/-- `struct MXUserBarrier`. -/
structure MXUserBarrier where
  header : MXUserHeader
  emptying : Bool
  configCount : Nat
  curContext : Nat
  contexts : BarrierContext × BarrierContext
  deriving DecidableEq, Repr

/-- `barrier->contexts[i].count`. -/
def MXUserBarrier.ctxCount (b : MXUserBarrier) (i : Nat) : Nat :=
  if i = 0 then b.contexts.1.count else b.contexts.2.count

/-- `barrier->contexts[i].count = n`. -/
def MXUserBarrier.setCount (b : MXUserBarrier) (i : Nat) (n : Nat) :
    MXUserBarrier :=
  if i = 0 then
    { b with contexts := ({ b.contexts.1 with count := n }, b.contexts.2) }
  else
    { b with contexts := (b.contexts.1, { b.contexts.2 with count := n }) }

/-- What the arrival section of `MXUser_EnterBarrier` does with its thread:
park it on context `ptr`'s wait-channel (`MXUser_WaitCondVarExclLock`), or —
for the last arrival — broadcast on that channel and fall through without
parking (`MXUser_BroadcastCondVar`). -/
inductive ArrivalOutcome
  | park
  | broadcast
  deriving DecidableEq, Repr

/-- Result of the arrival section: the updated barrier, the index of the
context the thread registered in (the local `ptr`), and whether the thread
parks or broadcasts. -/
structure ArrivalResult where
  state : MXUserBarrier
  ptr : Nat
  outcome : ArrivalOutcome
  deriving DecidableEq, Repr

/-- Lines 237-278 of `MXUser_EnterBarrier`: the bookkeeping performed while
holding the lock, up to and including the decision to park or broadcast. -/
def MXUser_EnterBarrier_arrive (b : MXUserBarrier) : ArrivalResult :=
  if b.emptying then
    -- abnormal entry: register in the other context and park there
    let other := (b.curContext + 1) % 2
    let b1 := b.setCount other (incr32 (b.ctxCount other))
    { state := b1, ptr := other, outcome := .park }
  else
    -- normal entry: register in the current context
    let newCount := incr32 (b.ctxCount b.curContext)
    let b1 := b.setCount b.curContext newCount
    let b2 := { b1 with emptying := newCount == b.configCount }
    if newCount == b.configCount then
      { state := b2, ptr := b.curContext, outcome := .broadcast }
    else
      { state := b2, ptr := b.curContext, outcome := .park }

/-- Lines 280-285 of `MXUser_EnterBarrier`: after waking (or falling through
as the broadcaster), decrement the count of the context the thread used
(`i`); if it reaches 0 the round has drained — clear `emptying` and toggle
`curContext`. -/
def MXUser_EnterBarrier_exit (b : MXUserBarrier) (i : Nat) : MXUserBarrier :=
  let newCount := decr32 (b.ctxCount i)
  let b1 := b.setCount i newCount
  if newCount == 0 then
    { b1 with emptying := false, curContext := (b1.curContext + 1) % 2 }
  else
    b1

/-- Observable actions of `MXUser_DestroyBarrier`. -/
inductive DestroyEvent
  | assertFail      -- ASSERT on the signature fires
  | dumpAndPanic    -- `MXUserDumpAndPanic`: diagnostic dump + abort
  | destroyCondVar0 -- `MXUser_DestroyCondVar(contexts[0].condVar)`
  | destroyCondVar1 -- `MXUser_DestroyCondVar(contexts[1].condVar)`
  | destroyLock     -- `MXUser_DestroyExclLock(barrier->lock)`
  | clearSignature  -- `barrier->header.signature = 0`
  | freeName        -- `free(barrier->header.name)`
  | freeBarrier     -- `free(barrier)`
  deriving DecidableEq, Repr

/-- `MXUser_DestroyBarrier` (lines 181-203): the trace of actions performed,
and the handle afterwards (`none` once the memory is freed; unchanged when
the fatal path fires, since `MXUserDumpAndPanic` does not return). -/
def MXUser_DestroyBarrier (barrier : Option MXUserBarrier) :
    List DestroyEvent × Option MXUserBarrier :=
  match barrier with
  | none => ([], none)
  | some b =>
    if b.header.signature ≠ MXUSER_BARRIER_SIGNATURE then
      ([.assertFail], some b)
    else if b.ctxCount 0 ≠ 0 ∨ b.ctxCount 1 ≠ 0 then
      ([.dumpAndPanic], some b)
    else
      ([.destroyCondVar0, .destroyCondVar1, .destroyLock, .clearSignature,
        .freeName, .freeBarrier], none)

/-- Sub-resources `MXUser_CreateBarrier` allocates. -/
inductive Res
  | barrierMem -- `Util_SafeCalloc(1, sizeof(*barrier))`
  | nameStr    -- `Str_SafeAsprintf` / `Util_SafeStrdup` result
  | lock       -- `MXUser_CreateExclLock`
  | condVar0   -- `MXUser_CreateCondVarExclLock` for contexts[0]
  | condVar1   -- `MXUser_CreateCondVarExclLock` for contexts[1]
  deriving DecidableEq, Repr

/-- Observable allocation actions of `MXUser_CreateBarrier`. -/
inductive CreateEvent
  | assertFail         -- `ASSERT(count)` fires
  | alloc (r : Res)
  | release (r : Res)
  deriving DecidableEq, Repr

/-- The `properName` computed at lines 116-120: a formatted placeholder
when no name is given, a copy of the caller's name otherwise. -/
def properNameOf (userName : Option String) : String :=
  match userName with
  | none => "Barrier-0x0"   -- `Str_SafeAsprintf(NULL, "Barrier-%p", ...)`
  | some n => n             -- `Util_SafeStrdup(userName)`

/-- The barrier state as initialized at lines 147-154 of
`MXUser_CreateBarrier`: configured count stored, not emptying, context 0
current, both counts zeroed by the calloc, signature set. -/
def freshBarrier (userName : Option String) (rank count : Nat) :
    MXUserBarrier :=
  { header := { signature := MXUSER_BARRIER_SIGNATURE,
                name := properNameOf userName, rank := rank },
    emptying := false, configCount := count, curContext := 0,
    contexts := (⟨0⟩, ⟨0⟩) }

/-- `MXUser_CreateBarrier` (lines 104-162).  The fallible collaborators
(`MXUser_CreateExclLock`, `MXUser_CreateCondVarExclLock`) are abstracted by
the booleans `lockOk`, `cv0Ok`, `cv1Ok` saying whether each allocation
succeeds; the `Safe` allocators never fail.  A failed collaborator allocates
nothing, and `MXUser_DestroyCondVar(NULL)` is a no-op, so release events are
emitted only for resources actually allocated. -/
def MXUser_CreateBarrier (userName : Option String) (rank count : Nat)
    (lockOk cv0Ok cv1Ok : Bool) : List CreateEvent × Option MXUserBarrier :=
  if count = 0 then
    ([.assertFail], none)
  else
    -- `properName` is allocated here (see `properNameOf`); the `.alloc
    -- .nameStr` event records it
    let ev0 : List CreateEvent := [.alloc .barrierMem, .alloc .nameStr]
    if lockOk = false then
      (ev0 ++ [.release .nameStr, .release .barrierMem], none)
    else
      let ev1 := ev0 ++ [CreateEvent.alloc .lock]
      let ev2 := ev1 ++ (if cv0Ok then [CreateEvent.alloc .condVar0] else [])
                     ++ (if cv1Ok then [CreateEvent.alloc .condVar1] else [])
      if cv0Ok = false ∨ cv1Ok = false then
        (ev2 ++ (if cv0Ok then [CreateEvent.release .condVar0] else [])
            ++ (if cv1Ok then [CreateEvent.release .condVar1] else [])
            ++ [.release .lock, .release .nameStr, .release .barrierMem],
         none)
      else
        (ev2, some (freshBarrier userName rank count))

/-- Number of `alloc r` events in a create trace. -/
def allocCount (evs : List CreateEvent) (r : Res) : Nat :=
  evs.count (CreateEvent.alloc r)

/-- Number of `release r` events in a create trace. -/
def releaseCount (evs : List CreateEvent) (r : Res) : Nat :=
  evs.count (CreateEvent.release r)

/-- Every allocation in the trace has a matching release: nothing leaks. -/
def BalancedTrace (evs : List CreateEvent) : Prop :=
  allocCount evs .barrierMem = releaseCount evs .barrierMem ∧
  allocCount evs .nameStr = releaseCount evs .nameStr ∧
  allocCount evs .lock = releaseCount evs .lock ∧
  allocCount evs .condVar0 = releaseCount evs .condVar0 ∧
  allocCount evs .condVar1 = releaseCount evs .condVar1

/-- Result of one `MXUser_CreateSingletonBarrier` call: the returned handle,
the storage cell's contents after the call's last access to it, whether
`MXUser_CreateBarrier` was invoked, and the action trace of the
`MXUser_DestroyBarrier` call on a losing candidate (empty if none). -/
structure SingletonResult where
  returned : Option MXUserBarrier
  cellAfter : Option MXUserBarrier
  constructed : Bool
  destroyEvents : List DestroyEvent
  deriving DecidableEq, Repr

/-- `MXUser_CreateSingletonBarrier` (lines 310-337).  The atomic storage cell
is read at line 320 (`cellStart`), compare-and-swapped at line 325, and
re-read at line 332.  Concurrent callers may write the cell between these
accesses, so the cell's contents at the CAS (`casCell`) and — when the cell
was still empty after the CAS, which requires the candidate construction to
have failed — at the re-read (`rereadCell`) are separate parameters.  A
non-null cell is never overwritten (the only write is the CAS from NULL), so
after a successful installation the re-read returns the installed value. -/
def MXUser_CreateSingletonBarrier
    (cellStart casCell rereadCell : Option MXUserBarrier)
    (name : Option String) (rank count : Nat)
    (lockOk cv0Ok cv1Ok : Bool) : SingletonResult :=
  match cellStart with
  | some b =>
    -- fast path: the cell already holds a barrier
    { returned := some b, cellAfter := some b, constructed := false,
      destroyEvents := [] }
  | none =>
    let newBarrier := (MXUser_CreateBarrier name rank count lockOk cv0Ok cv1Ok).2
    match casCell with
    | some w =>
      -- CAS lost: another thread installed `w`; destroy the candidate
      { returned := some w, cellAfter := some w, constructed := true,
        destroyEvents := (MXUser_DestroyBarrier newBarrier).1 }
    | none =>
      -- CAS succeeded: the candidate (possibly NULL) was written; the code
      -- then re-reads the cell
      match newBarrier with
      | some nb =>
        { returned := some nb, cellAfter := some nb, constructed := true,
          destroyEvents := [] }
      | none =>
        { returned := rereadCell, cellAfter := rereadCell,
          constructed := true, destroyEvents := [] }

/-- Where a thread executing `MXUser_EnterBarrier` is, between the atomic
sections: it has called the function but not yet acquired the lock
(`ready`); it is parked in the wait on context `ctx`'s channel (`parked`);
it has been broadcast-woken and waits to reacquire the lock and run the exit
bookkeeping (`woken`); it has returned (`done`). -/
inductive ThreadPhase
  | ready
  | parked (ctx : Nat)
  | woken (ctx : Nat)
  | done
  deriving DecidableEq, Repr

/-- Effect of `MXUser_BroadcastCondVar` on channel `c` on one thread's
phase: every thread parked on channel `c` becomes woken. -/
def wakeOn (c : Nat) : ThreadPhase → ThreadPhase
  | .parked d => if d = c then .woken d else .parked d
  | p => p

/-- Global state of `N` threads all calling `MXUser_EnterBarrier` on one
shared barrier. -/
structure SysState (N : Nat) where
  barrier : MXUserBarrier
  threads : Fin N → ThreadPhase

/-- Successor state when thread `i` acquires the lock, runs the arrival
section, and parks. -/
def arriveParkNext {N : Nat} (s : SysState N) (i : Fin N) : SysState N :=
  { barrier := (MXUser_EnterBarrier_arrive s.barrier).state,
    threads := Function.update s.threads i
      (.parked (MXUser_EnterBarrier_arrive s.barrier).ptr) }

/-- Successor state when thread `i` acquires the lock, runs the arrival
section as the last arrival, broadcasts, runs the exit bookkeeping, and
returns — all in one critical section (the lock is held throughout, so the
woken threads cannot interleave). -/
def arriveLastNext {N : Nat} (s : SysState N) (i : Fin N) : SysState N :=
  { barrier := MXUser_EnterBarrier_exit
      (MXUser_EnterBarrier_arrive s.barrier).state
      (MXUser_EnterBarrier_arrive s.barrier).ptr,
    threads := Function.update
      (fun j => wakeOn (MXUser_EnterBarrier_arrive s.barrier).ptr
        (s.threads j)) i .done }

/-- Successor state when a woken thread `i` reacquires the lock, runs the
exit bookkeeping on the context `c` it registered in, and returns. -/
def wakeExitNext {N : Nat} (s : SysState N) (i : Fin N) (c : Nat) :
    SysState N :=
  { barrier := MXUser_EnterBarrier_exit s.barrier c,
    threads := Function.update s.threads i .done }

/-- Interleaving semantics of `N` concurrent `MXUser_EnterBarrier` calls:
each step is one critical section under the barrier's lock.  Parked threads
move only when the broadcast reaches them (the code's waits have no timeout,
interruption, or spurious-wakeup path). -/
inductive SysStep {N : Nat} : SysState N → SysState N → Prop
  | arrivePark (s : SysState N) (i : Fin N)
      (hr : s.threads i = .ready)
      (ho : (MXUser_EnterBarrier_arrive s.barrier).outcome = .park) :
      SysStep s (arriveParkNext s i)
  | arriveLast (s : SysState N) (i : Fin N)
      (hr : s.threads i = .ready)
      (ho : (MXUser_EnterBarrier_arrive s.barrier).outcome = .broadcast) :
      SysStep s (arriveLastNext s i)
  | wakeExit (s : SysState N) (i : Fin N) (c : Nat)
      (hw : s.threads i = .woken c) :
      SysStep s (wakeExitNext s i c)

/-- A freshly created barrier with party count `N` (the success result of
`MXUser_CreateBarrier`). -/
def initBarrier (N : Nat) : MXUserBarrier := freshBarrier none 0 N

/-- Initial state: a fresh barrier with party count `N`, and all `N`
threads having called `MXUser_EnterBarrier`. -/
def initSys (N : Nat) : SysState N :=
  { barrier := initBarrier N, threads := fun _ => .ready }

/-- States reachable by interleaving the `N` calls. -/
def Reachable (N : Nat) (s : SysState N) : Prop :=
  Relation.ReflTransGen SysStep (initSys N) s

/-- Number of threads currently in phase `p`. -/
def nPhase {N : Nat} (t : Fin N → ThreadPhase) (p : ThreadPhase) : Nat :=
  (Finset.univ.filter fun i => t i = p).card

/-- Progress measure of one thread: strictly drops on every step it takes. -/
def phaseWeight : ThreadPhase → Nat
  | .ready => 3
  | .parked _ => 2
  | .woken _ => 1
  | .done => 0

/-- Progress measure of the whole system. -/
def sysMeasure {N : Nat} (s : SysState N) : Nat :=
  ∑ j, phaseWeight (s.threads j)

/-- Invariant, arrival half of the round: the current context (index 0) is
filling, every registered thread is parked on its channel, and at least one
thread has yet to run its arrival section. -/
def PhaseA {N : Nat} (s : SysState N) : Prop :=
  s.barrier.emptying = false ∧
  s.barrier.curContext = 0 ∧
  nPhase s.threads (.woken 0) = 0 ∧
  nPhase s.threads .done = 0 ∧
  s.barrier.ctxCount 0 = nPhase s.threads (.parked 0) ∧
  1 ≤ nPhase s.threads .ready ∧
  nPhase s.threads .ready + nPhase s.threads (.parked 0) = N

/-- Invariant, draining half of the round: the broadcast has happened, the
remaining registered threads are woken and exiting, and the handoff clears
`emptying` and toggles `curContext` exactly when the count drains to 0. -/
def PhaseB {N : Nat} (s : SysState N) : Prop :=
  nPhase s.threads .ready = 0 ∧
  nPhase s.threads (.parked 0) = 0 ∧
  s.barrier.ctxCount 0 = nPhase s.threads (.woken 0) ∧
  (nPhase s.threads (.woken 0) = 0 →
    s.barrier.emptying = false ∧ s.barrier.curContext = 1) ∧
  (nPhase s.threads (.woken 0) ≠ 0 →
    s.barrier.emptying = true ∧ s.barrier.curContext = 0)

/-- Inductive invariant of the `N`-thread round. -/
def SysInv {N : Nat} (s : SysState N) : Prop :=
  (∀ i : Fin N, ∀ c : Nat, s.threads i = .parked c → c = 0) ∧
  (∀ i : Fin N, ∀ c : Nat, s.threads i = .woken c → c = 0) ∧
  s.barrier.configCount = N ∧
  s.barrier.ctxCount 1 = 0 ∧
  (PhaseA s ∨ PhaseB s)

/-- Concrete quiescent barrier (party count 2) used as witness input. -/
def sampleBarrier : MXUserBarrier :=
  { header := { signature := MXUSER_BARRIER_SIGNATURE, name := "sample",
                rank := 0 },
    emptying := false, configCount := 2, curContext := 0,
    contexts := (⟨0⟩, ⟨0⟩) }

/-- Concrete barrier mid-release (emptying, one thread draining) used as
witness input. -/
def sampleEmptying : MXUserBarrier :=
  { header := { signature := MXUSER_BARRIER_SIGNATURE, name := "sample",
                rank := 0 },
    emptying := true, configCount := 2, curContext := 0,
    contexts := (⟨1⟩, ⟨0⟩) }

/-- Concrete barrier with a thread still registered (count 1) used as
witness input. -/
def sampleBusy : MXUserBarrier :=
  { header := { signature := MXUSER_BARRIER_SIGNATURE, name := "sample",
                rank := 0 },
    emptying := false, configCount := 2, curContext := 0,
    contexts := (⟨1⟩, ⟨0⟩) }

/-- Concrete single-party barrier used as witness input. -/
def sampleSolo : MXUserBarrier :=
  { header := { signature := MXUSER_BARRIER_SIGNATURE, name := "sample",
                rank := 0 },
    emptying := false, configCount := 1, curContext := 0,
    contexts := (⟨0⟩, ⟨0⟩) }

/-! ## Basic lemmas about the embedded operations -/

lemma incr32_eq_mod {n : Nat} (h : n < UINT32_CARD) :
    incr32 n = (n + 1) % UINT32_CARD := by
  unfold incr32
  by_cases he : n + 1 = UINT32_CARD
  · rw [if_pos he, he, Nat.mod_self]
  · rw [if_neg he, Nat.mod_eq_of_lt (by omega)]

lemma decr32_eq_mod {n : Nat} (h : n < UINT32_CARD) :
    decr32 n = (n + (UINT32_CARD - 1)) % UINT32_CARD := by
  unfold decr32 UINT32_CARD at *
  by_cases h0 : n = 0
  · rw [if_pos h0, h0, Nat.zero_add, Nat.mod_eq_of_lt (by omega)]
  · rw [if_neg h0]
    have h3 : n + (4294967296 - 1) = (n - 1) + 4294967296 := by omega
    rw [h3, Nat.add_mod_right, Nat.mod_eq_of_lt (by omega)]

lemma incr32_eq {n : Nat} (h : n + 1 < UINT32_CARD) : incr32 n = n + 1 := by
  unfold incr32
  rw [if_neg (by omega)]

lemma decr32_eq {n : Nat} (h1 : 1 ≤ n) : decr32 n = n - 1 := by
  unfold decr32
  rw [if_neg (by omega)]

@[simp] lemma setCount_emptying (b : MXUserBarrier) (i n : Nat) :
    (b.setCount i n).emptying = b.emptying := by
  unfold MXUserBarrier.setCount; split <;> rfl

@[simp] lemma setCount_curContext (b : MXUserBarrier) (i n : Nat) :
    (b.setCount i n).curContext = b.curContext := by
  unfold MXUserBarrier.setCount; split <;> rfl

@[simp] lemma setCount_configCount (b : MXUserBarrier) (i n : Nat) :
    (b.setCount i n).configCount = b.configCount := by
  unfold MXUserBarrier.setCount; split <;> rfl

@[simp] lemma setCount_header (b : MXUserBarrier) (i n : Nat) :
    (b.setCount i n).header = b.header := by
  unfold MXUserBarrier.setCount; split <;> rfl

@[simp] lemma ctxCount_setCount_self (b : MXUserBarrier) (i n : Nat) :
    (b.setCount i n).ctxCount i = n := by
  by_cases h : i = 0 <;>
    simp [MXUserBarrier.setCount, MXUserBarrier.ctxCount, h]

lemma ctxCount_setCount_other (b : MXUserBarrier) {i j : Nat} (n : Nat)
    (hi : i ≤ 1) (hj : j ≤ 1) (hij : i ≠ j) :
    (b.setCount i n).ctxCount j = b.ctxCount j := by
  interval_cases i <;> interval_cases j <;>
    simp_all [MXUserBarrier.setCount, MXUserBarrier.ctxCount]

@[simp] lemma ctxCount_withEmptying (b : MXUserBarrier) (e : Bool) (i : Nat) :
    MXUserBarrier.ctxCount { b with emptying := e } i = b.ctxCount i := rfl

@[simp] lemma ctxCount_withEmptyingCur (b : MXUserBarrier) (e : Bool)
    (c i : Nat) :
    MXUserBarrier.ctxCount { b with emptying := e, curContext := c } i
      = b.ctxCount i := rfl

@[simp] lemma ctxCount_mk (hd : MXUserHeader) (e : Bool) (cfg cur : Nat)
    (b' : MXUserBarrier) (i : Nat) :
    MXUserBarrier.ctxCount
        { header := hd, emptying := e, configCount := cfg,
          curContext := cur, contexts := b'.contexts } i
      = b'.ctxCount i := rfl

lemma setCount_setCount (b : MXUserBarrier) (i m n : Nat) :
    (b.setCount i n).setCount i m = b.setCount i m := by
  by_cases h : i = 0 <;> simp [MXUserBarrier.setCount, h]

lemma setCount_self_eq (b : MXUserBarrier) (i : Nat) (h : b.ctxCount i = 0) :
    b.setCount i 0 = b := by
  rcases b with ⟨hdr, em, cfg, cur, ⟨⟨k1⟩, ⟨k2⟩⟩⟩
  unfold MXUserBarrier.ctxCount at h
  by_cases hi : i = 0
  · rw [if_pos hi] at h
    simp only at h
    subst h
    simp [MXUserBarrier.setCount, hi]
  · rw [if_neg hi] at h
    simp only at h
    subst h
    simp [MXUserBarrier.setCount, hi]

lemma setCount_withEmptying (b : MXUserBarrier) (e : Bool) (i n : Nat) :
    MXUserBarrier.setCount { b with emptying := e } i n
      = { b.setCount i n with emptying := e } := by
  by_cases h : i = 0 <;> simp [MXUserBarrier.setCount, h]

lemma arrive_state_normal (b : MXUserBarrier) (he : b.emptying = false) :
    (MXUser_EnterBarrier_arrive b).state
      = { b.setCount b.curContext (incr32 (b.ctxCount b.curContext)) with
          emptying := incr32 (b.ctxCount b.curContext) == b.configCount } := by
  unfold MXUser_EnterBarrier_arrive
  simp only [he, Bool.false_eq_true, if_false]
  split <;> rfl

lemma exit_drained (b : MXUserBarrier) (i : Nat)
    (h : decr32 (b.ctxCount i) = 0) :
    MXUser_EnterBarrier_exit b i
      = { b.setCount i 0 with emptying := false, curContext := (b.curContext + 1) % 2 } := by
  unfold MXUser_EnterBarrier_exit
  simp [h]

lemma arrive_normal_facts (b : MXUserBarrier) (h : b.emptying = false) :
    (MXUser_EnterBarrier_arrive b).ptr = b.curContext ∧
    (MXUser_EnterBarrier_arrive b).state.ctxCount b.curContext
      = incr32 (b.ctxCount b.curContext) ∧
    (incr32 (b.ctxCount b.curContext) = b.configCount →
      (MXUser_EnterBarrier_arrive b).state.emptying = true ∧
      (MXUser_EnterBarrier_arrive b).outcome = .broadcast) ∧
    (incr32 (b.ctxCount b.curContext) ≠ b.configCount →
      (MXUser_EnterBarrier_arrive b).state.emptying = false ∧
      (MXUser_EnterBarrier_arrive b).outcome = .park) := by
  unfold MXUser_EnterBarrier_arrive
  by_cases hc : incr32 (b.ctxCount b.curContext) = b.configCount <;>
    simp [h, hc]

/-! ## C1, C2, C3, C5: the enter state machine -/

/-- C1: For every barrier state with `emptying == false`, the arrival
section of `MXUser_EnterBarrier` registers the calling thread in
`contexts[curContext]` by incrementing its count; if the new count equals
the configured party count it sets `emptying` to true and broadcasts on that
context's wait-channel without parking, otherwise it parks the thread on
that context's wait-channel. -/
theorem enter_normal_arrival (b : MXUserBarrier) (h : b.emptying = false) :
    (MXUser_EnterBarrier_arrive b).ptr = b.curContext ∧
    (MXUser_EnterBarrier_arrive b).state.ctxCount b.curContext
      = incr32 (b.ctxCount b.curContext) ∧
    (incr32 (b.ctxCount b.curContext) = b.configCount →
      (MXUser_EnterBarrier_arrive b).state.emptying = true ∧
      (MXUser_EnterBarrier_arrive b).outcome = .broadcast) ∧
    (incr32 (b.ctxCount b.curContext) ≠ b.configCount →
      (MXUser_EnterBarrier_arrive b).state.emptying = false ∧
      (MXUser_EnterBarrier_arrive b).outcome = .park) :=
  arrive_normal_facts b h

/-- C2: For every barrier state with `emptying == true` (and `curContext` a
valid index), the arrival section of `MXUser_EnterBarrier` increments the
count of the other context (`(curContext + 1) & 1`) and parks the thread on
that other context's wait-channel, leaving the draining current context's
count (and `emptying` and `curContext`) unchanged by the arrival. -/
theorem enter_abnormal_arrival (b : MXUserBarrier) (h : b.emptying = true)
    (hc : b.curContext ≤ 1) :
    (MXUser_EnterBarrier_arrive b).ptr = (b.curContext + 1) % 2 ∧
    (MXUser_EnterBarrier_arrive b).state.ctxCount ((b.curContext + 1) % 2)
      = incr32 (b.ctxCount ((b.curContext + 1) % 2)) ∧
    (MXUser_EnterBarrier_arrive b).outcome = .park ∧
    (MXUser_EnterBarrier_arrive b).state.ctxCount b.curContext
      = b.ctxCount b.curContext ∧
    (MXUser_EnterBarrier_arrive b).state.emptying = b.emptying ∧
    (MXUser_EnterBarrier_arrive b).state.curContext = b.curContext := by
  have hst : (MXUser_EnterBarrier_arrive b).state
      = b.setCount ((b.curContext + 1) % 2)
          (incr32 (b.ctxCount ((b.curContext + 1) % 2))) := by
    simp [MXUser_EnterBarrier_arrive, h]
  have hptr : (MXUser_EnterBarrier_arrive b).ptr = (b.curContext + 1) % 2 := by
    simp [MXUser_EnterBarrier_arrive, h]
  have hout : (MXUser_EnterBarrier_arrive b).outcome = .park := by
    simp [MXUser_EnterBarrier_arrive, h]
  refine ⟨hptr, ?_, hout, ?_, ?_, ?_⟩
  · rw [hst]; simp
  · rw [hst]
    exact ctxCount_setCount_other b _ (by omega) hc (by omega)
  · rw [hst]; simp [h]
  · rw [hst]; simp

/-- C3: On exit from `MXUser_EnterBarrier`, every thread decrements the
count of the context `i` it registered in; when and only when that decrement
brings the context's count to 0, `emptying` is cleared and `curContext` is
toggled to the other index — and `curContext` never changes otherwise (the
arrival section also leaves it unchanged). -/
theorem enter_exit_handoff (b : MXUserBarrier) (i : Nat) :
    (MXUser_EnterBarrier_exit b i).ctxCount i = decr32 (b.ctxCount i) ∧
    (decr32 (b.ctxCount i) = 0 ↔
      (MXUser_EnterBarrier_exit b i).emptying = false ∧
      (MXUser_EnterBarrier_exit b i).curContext = (b.curContext + 1) % 2) ∧
    (decr32 (b.ctxCount i) ≠ 0 →
      (MXUser_EnterBarrier_exit b i).curContext = b.curContext ∧
      (MXUser_EnterBarrier_exit b i).emptying = b.emptying) ∧
    (MXUser_EnterBarrier_arrive b).state.curContext = b.curContext := by
  refine ⟨?_, ?_, ?_, ?_⟩
  · unfold MXUser_EnterBarrier_exit
    by_cases h0 : decr32 (b.ctxCount i) = 0 <;> simp [h0]
  · by_cases h0 : decr32 (b.ctxCount i) = 0
    · simp [MXUser_EnterBarrier_exit, h0]
    · simp only [MXUser_EnterBarrier_exit, beq_iff_eq, h0, if_false,
        setCount_emptying, setCount_curContext, false_iff]
      rintro ⟨-, hcur⟩
      omega
  · intro h0
    simp [MXUser_EnterBarrier_exit, h0]
  · unfold MXUser_EnterBarrier_arrive
    by_cases he : b.emptying
    · simp [he]
    · by_cases hq : incr32 (b.ctxCount b.curContext) = b.configCount <;>
        simp [he, hq]

/-- C5: On a barrier with party count 1 (current context count 0, not
emptying), a call to `MXUser_EnterBarrier` returns without parking: the
arrival increments the current context's count to 1, sets `emptying`, and
broadcasts; the exit decrements the count back to 0, clears `emptying`, and
toggles `curContext`, so the call's net state effect is only the
`curContext` toggle. -/
theorem enter_party_of_one (b : MXUserBarrier) (h1 : b.configCount = 1)
    (h2 : b.emptying = false) (h3 : b.ctxCount b.curContext = 0) :
    (MXUser_EnterBarrier_arrive b).outcome = .broadcast ∧
    (MXUser_EnterBarrier_arrive b).state.ctxCount b.curContext = 1 ∧
    (MXUser_EnterBarrier_arrive b).state.emptying = true ∧
    MXUser_EnterBarrier_exit (MXUser_EnterBarrier_arrive b).state
        (MXUser_EnterBarrier_arrive b).ptr
      = { b with curContext := (b.curContext + 1) % 2 } := by
  have hi : incr32 (b.ctxCount b.curContext) = 1 := by rw [h3]; decide
  obtain ⟨hptr, hcnt, himp, -⟩ := arrive_normal_facts b h2
  have hb := himp (by rw [hi, h1])
  refine ⟨hb.2, by rw [hcnt, hi], hb.1, ?_⟩
  rcases b with ⟨hdr, em, cfg, cur, ⟨⟨k1⟩, ⟨k2⟩⟩⟩
  obtain rfl : cfg = 1 := h1
  obtain rfl : em = false := h2
  by_cases hcur : cur = 0
  · obtain rfl : k1 = 0 := by
      simpa [MXUserBarrier.ctxCount, hcur] using h3
    subst hcur
    simp [MXUser_EnterBarrier_arrive, MXUser_EnterBarrier_exit,
      MXUserBarrier.ctxCount, MXUserBarrier.setCount, incr32, decr32,
      UINT32_CARD]
  · obtain rfl : k2 = 0 := by
      simpa [MXUserBarrier.ctxCount, hcur] using h3
    simp [MXUser_EnterBarrier_arrive, MXUser_EnterBarrier_exit,
      MXUserBarrier.ctxCount, MXUserBarrier.setCount, incr32, decr32,
      UINT32_CARD, hcur]

/-! ## C6, C9: destroy; C7: create -/

/-- C6: `MXUser_DestroyBarrier` on a valid handle requires both contexts'
counts to be 0: if either count is nonzero it invokes the fatal
dump-and-abort path and performs none of the freeing actions; if both are 0
it destroys both wait-channels and the lock and invalidates the handle
(clearing its signature before the memory is freed). -/
theorem destroy_requires_empty (b : MXUserBarrier)
    (hsig : b.header.signature = MXUSER_BARRIER_SIGNATURE) :
    (¬(b.ctxCount 0 = 0 ∧ b.ctxCount 1 = 0) →
      MXUser_DestroyBarrier (some b) = ([.dumpAndPanic], some b)) ∧
    (b.ctxCount 0 = 0 ∧ b.ctxCount 1 = 0 →
      MXUser_DestroyBarrier (some b)
        = ([.destroyCondVar0, .destroyCondVar1, .destroyLock,
            .clearSignature, .freeName, .freeBarrier], none)) := by
  constructor
  · intro h
    have h' : b.ctxCount 0 ≠ 0 ∨ b.ctxCount 1 ≠ 0 := by tauto
    simp only [MXUser_DestroyBarrier]
    rw [if_neg (by simp [hsig]), if_pos h']
  · rintro ⟨h0, h1⟩
    simp only [MXUser_DestroyBarrier]
    rw [if_neg (by simp [hsig]), if_neg (by simp [h0, h1])]

/-- C9: `MXUser_DestroyBarrier` on a null handle is a silent no-op: it
performs no action at all (no abort, no freeing, no state change). -/
theorem destroy_null_noop : MXUser_DestroyBarrier none = ([], none) := rfl

/-- C7: `MXUser_CreateBarrier` with `count ≥ 1` either returns a handle
whose state is `configCount = count`, `emptying = false`, `curContext = 0`,
both context counts 0 (and a valid signature), or — if allocating the lock
or either wait-channel fails — releases every partially constructed
sub-resource (including the name string: the trace is balanced) and returns
null; calling it with `count = 0` fires the `ASSERT(count)` precondition
instead of returning an error. -/
theorem create_contract (userName : Option String) (rank count : Nat)
    (lockOk cv0Ok cv1Ok : Bool) :
    (count = 0 →
      MXUser_CreateBarrier userName rank count lockOk cv0Ok cv1Ok
        = ([.assertFail], none)) ∧
    (1 ≤ count →
      (lockOk = true → cv0Ok = true → cv1Ok = true →
        ∃ b, (MXUser_CreateBarrier userName rank count lockOk cv0Ok cv1Ok).2
            = some b ∧
          b.configCount = count ∧ b.emptying = false ∧ b.curContext = 0 ∧
          b.ctxCount 0 = 0 ∧ b.ctxCount 1 = 0 ∧
          b.header.signature = MXUSER_BARRIER_SIGNATURE) ∧
      ((lockOk = false ∨ cv0Ok = false ∨ cv1Ok = false) →
        (MXUser_CreateBarrier userName rank count lockOk cv0Ok cv1Ok).2
          = none ∧
        BalancedTrace
          (MXUser_CreateBarrier userName rank count lockOk cv0Ok cv1Ok).1)) := by
  constructor
  · intro h0
    simp [MXUser_CreateBarrier, h0]
  · intro hpos
    have hne : ¬(count = 0) := by omega
    constructor
    · rintro rfl rfl rfl
      refine ⟨freshBarrier userName rank count, ?_, rfl, rfl, rfl, rfl, rfl,
        rfl⟩
      simp [MXUser_CreateBarrier, hne]
    · intro hfail
      rcases lockOk with _ | _ <;> rcases cv0Ok with _ | _ <;>
        rcases cv1Ok with _ | _ <;>
        simp_all [MXUser_CreateBarrier, BalancedTrace, allocCount,
          releaseCount]

/-! ## C8, C10: the singleton initializer -/

/-- C8: `MXUser_CreateSingletonBarrier` on a storage cell that already holds
a barrier returns that barrier without constructing anything; on a null cell
it constructs a candidate and compare-and-swaps it in (so the candidate
becomes both the cell contents and the result when the CAS wins); if the CAS
loses, the candidate is destroyed — its whole resource trace is released —
and the already-installed winning instance is returned.  In every path the
cell never changes once non-null, so at most one barrier is ever installed
per cell. -/
theorem singleton_install_once (name : Option String) (rank count : Nat)
    (cellStart casCell rereadCell : Option MXUserBarrier)
    (hcount : 1 ≤ count) :
    (∀ b, cellStart = some b →
      MXUser_CreateSingletonBarrier cellStart casCell rereadCell name rank
          count true true true
        = { returned := some b, cellAfter := some b, constructed := false,
            destroyEvents := [] }) ∧
    (cellStart = none →
      (MXUser_CreateSingletonBarrier cellStart casCell rereadCell name rank
          count true true true).constructed = true ∧
      (casCell = none →
        MXUser_CreateSingletonBarrier cellStart casCell rereadCell name rank
            count true true true
          = { returned := some (freshBarrier name rank count),
              cellAfter := some (freshBarrier name rank count),
              constructed := true, destroyEvents := [] }) ∧
      (∀ w, casCell = some w →
        MXUser_CreateSingletonBarrier cellStart casCell rereadCell name rank
            count true true true
          = { returned := some w, cellAfter := some w, constructed := true,
              destroyEvents := [.destroyCondVar0, .destroyCondVar1,
                .destroyLock, .clearSignature, .freeName, .freeBarrier] })) := by
  have hne : ¬(count = 0) := by omega
  have hcreate : (MXUser_CreateBarrier name rank count true true true).2
      = some (freshBarrier name rank count) := by
    simp [MXUser_CreateBarrier, hne]
  have hdestroy : MXUser_DestroyBarrier (some (freshBarrier name rank count))
      = ([.destroyCondVar0, .destroyCondVar1, .destroyLock, .clearSignature,
          .freeName, .freeBarrier], none) := by
    simp [MXUser_DestroyBarrier, freshBarrier, MXUserBarrier.ctxCount]
  refine ⟨?_, ?_⟩
  · rintro b rfl
    rfl
  · rintro rfl
    refine ⟨?_, ?_, ?_⟩
    · cases casCell <;>
        simp [MXUser_CreateSingletonBarrier, hcreate]
    · rintro rfl
      simp [MXUser_CreateSingletonBarrier, hcreate]
    · rintro w rfl
      simp [MXUser_CreateSingletonBarrier, hcreate, hdestroy]

/-- C10: If the candidate construction inside
`MXUser_CreateSingletonBarrier` fails (`MXUser_CreateBarrier` returns null)
while the storage cell is null throughout, the compare-and-swap installs
nothing — the cell stays null — and the call returns null, so the singleton
initializer can return a failure result rather than always a handle. -/
theorem singleton_create_fail (name : Option String) (rank count : Nat)
    (lockOk cv0Ok cv1Ok : Bool)
    (hfail : (MXUser_CreateBarrier name rank count lockOk cv0Ok cv1Ok).2
      = none) :
    MXUser_CreateSingletonBarrier none none none name rank count lockOk cv0Ok
        cv1Ok
      = { returned := none, cellAfter := none, constructed := true,
          destroyEvents := [] } := by
  simp [MXUser_CreateSingletonBarrier, hfail]

/-! ## Counting lemmas for the N-thread system -/

lemma nPhase_eq_sum {N : Nat} (t : Fin N → ThreadPhase) (p : ThreadPhase) :
    nPhase t p = ∑ j, if t j = p then 1 else 0 := by
  rw [nPhase, Finset.card_eq_sum_ones, Finset.sum_filter]

lemma sum_update_phase {N : Nat} (t : Fin N → ThreadPhase) (i : Fin N)
    (q : ThreadPhase) (f : ThreadPhase → Nat) :
    (∑ j, f (Function.update t i q j)) + f (t i)
      = (∑ j, f (t j)) + f q := by
  have h1 : (fun j => f (Function.update t i q j))
      = Function.update (fun j => f (t j)) i (f q) := by
    funext j
    by_cases hj : j = i
    · subst hj; simp
    · simp [Function.update_noteq hj]
  rw [h1, Finset.sum_update_of_mem (Finset.mem_univ i)]
  have h2 : (∑ j, f (t j))
      = (Finset.univ \ {i}).sum (fun j => f (t j)) + f (t i) := by
    rw [Finset.sum_eq_sum_diff_singleton_add (Finset.mem_univ i)]
  omega

lemma nPhase_update {N : Nat} (t : Fin N → ThreadPhase) (i : Fin N)
    (q p : ThreadPhase) :
    nPhase (Function.update t i q) p + (if t i = p then 1 else 0)
      = nPhase t p + (if q = p then 1 else 0) := by
  rw [nPhase_eq_sum, nPhase_eq_sum]
  exact sum_update_phase t i q (fun x => if x = p then 1 else 0)

lemma nPhase_le {N : Nat} (t : Fin N → ThreadPhase) (p : ThreadPhase) :
    nPhase t p ≤ N := by
  calc nPhase t p ≤ (Finset.univ : Finset (Fin N)).card :=
        Finset.card_filter_le _ _
    _ = N := by simp

lemma nPhase_pos {N : Nat} {t : Fin N → ThreadPhase} {p : ThreadPhase}
    {i : Fin N} (h : t i = p) : 1 ≤ nPhase t p :=
  Finset.card_pos.mpr ⟨i, Finset.mem_filter.mpr ⟨Finset.mem_univ i, h⟩⟩

lemma exists_phase {N : Nat} {t : Fin N → ThreadPhase} {p : ThreadPhase}
    (h : 1 ≤ nPhase t p) : ∃ i, t i = p := by
  obtain ⟨i, hi⟩ := Finset.card_pos.mp h
  exact ⟨i, (Finset.mem_filter.mp hi).2⟩

lemma wake_ind_parked (c : Nat) (x : ThreadPhase) :
    (if wakeOn c x = ThreadPhase.parked c then 1 else 0) = 0 := by
  cases x with
  | parked d => by_cases hd : d = c <;> simp [wakeOn, hd]
  | ready => simp [wakeOn]
  | woken d => simp [wakeOn]
  | done => simp [wakeOn]

lemma wake_ind_woken (c : Nat) (x : ThreadPhase) :
    (if wakeOn c x = ThreadPhase.woken c then 1 else 0)
      = (if x = ThreadPhase.woken c then 1 else 0)
        + (if x = ThreadPhase.parked c then 1 else 0) := by
  cases x with
  | parked d => by_cases hd : d = c <;> simp [wakeOn, hd]
  | ready => simp [wakeOn]
  | woken d => by_cases hd : d = c <;> simp [wakeOn, hd]
  | done => simp [wakeOn]

lemma wake_ind_ready (c : Nat) (x : ThreadPhase) :
    (if wakeOn c x = ThreadPhase.ready then 1 else 0)
      = (if x = ThreadPhase.ready then 1 else 0) := by
  cases x with
  | parked d => by_cases hd : d = c <;> simp [wakeOn, hd]
  | ready => simp [wakeOn]
  | woken d => simp [wakeOn]
  | done => simp [wakeOn]

lemma wake_ind_done (c : Nat) (x : ThreadPhase) :
    (if wakeOn c x = ThreadPhase.done then 1 else 0)
      = (if x = ThreadPhase.done then 1 else 0) := by
  cases x with
  | parked d => by_cases hd : d = c <;> simp [wakeOn, hd]
  | ready => simp [wakeOn]
  | woken d => simp [wakeOn]
  | done => simp [wakeOn]

lemma nPhase_wake_parked {N : Nat} (t : Fin N → ThreadPhase) (c : Nat) :
    nPhase (fun j => wakeOn c (t j)) (.parked c) = 0 := by
  rw [nPhase_eq_sum]
  simp only [wake_ind_parked]
  simp

lemma nPhase_wake_woken {N : Nat} (t : Fin N → ThreadPhase) (c : Nat) :
    nPhase (fun j => wakeOn c (t j)) (.woken c)
      = nPhase t (.woken c) + nPhase t (.parked c) := by
  rw [nPhase_eq_sum, nPhase_eq_sum, nPhase_eq_sum, ← Finset.sum_add_distrib]
  exact Finset.sum_congr rfl fun j _ => wake_ind_woken c (t j)

lemma nPhase_wake_ready {N : Nat} (t : Fin N → ThreadPhase) (c : Nat) :
    nPhase (fun j => wakeOn c (t j)) .ready = nPhase t .ready := by
  rw [nPhase_eq_sum, nPhase_eq_sum]
  exact Finset.sum_congr rfl fun j _ => wake_ind_ready c (t j)

lemma nPhase_wake_done {N : Nat} (t : Fin N → ThreadPhase) (c : Nat) :
    nPhase (fun j => wakeOn c (t j)) .done = nPhase t .done := by
  rw [nPhase_eq_sum, nPhase_eq_sum]
  exact Finset.sum_congr rfl fun j _ => wake_ind_done c (t j)

lemma phaseWeight_wake_le (c : Nat) (x : ThreadPhase) :
    phaseWeight (wakeOn c x) ≤ phaseWeight x := by
  cases x with
  | parked d => by_cases hd : d = c <;> simp [wakeOn, hd, phaseWeight]
  | ready => simp [wakeOn]
  | woken d => simp [wakeOn]
  | done => simp [wakeOn]

lemma wakeOn_parked_inv {c d : Nat} {x : ThreadPhase}
    (h : wakeOn c x = .parked d) : x = .parked d ∧ d ≠ c := by
  cases x with
  | parked e =>
    by_cases he : e = c <;> simp_all [wakeOn]
  | ready => simp_all [wakeOn]
  | woken e => simp_all [wakeOn]
  | done => simp_all [wakeOn]

lemma wakeOn_woken_inv {c d : Nat} {x : ThreadPhase}
    (h : wakeOn c x = .woken d) :
    x = .woken d ∨ (x = .parked d ∧ d = c) := by
  cases x with
  | parked e =>
    by_cases he : e = c <;> simp_all [wakeOn]
  | ready => simp_all [wakeOn]
  | woken e => simp_all [wakeOn]
  | done => simp_all [wakeOn]

/-! ## Invariant of the N-thread round -/

lemma arrive_ptr_normal (b : MXUserBarrier) (he : b.emptying = false) :
    (MXUser_EnterBarrier_arrive b).ptr = b.curContext := by
  unfold MXUser_EnterBarrier_arrive
  simp only [he, Bool.false_eq_true, if_false]
  split <;> rfl

lemma arrive_outcome_normal (b : MXUserBarrier) (he : b.emptying = false) :
    (MXUser_EnterBarrier_arrive b).outcome
      = if incr32 (b.ctxCount b.curContext) = b.configCount
        then ArrivalOutcome.broadcast else ArrivalOutcome.park := by
  unfold MXUser_EnterBarrier_arrive
  by_cases hq : incr32 (b.ctxCount b.curContext) = b.configCount <;>
    simp [he, hq]

lemma exit_not_drained (b : MXUserBarrier) (i : Nat)
    (h : decr32 (b.ctxCount i) ≠ 0) :
    MXUser_EnterBarrier_exit b i = b.setCount i (decr32 (b.ctxCount i)) := by
  unfold MXUser_EnterBarrier_exit
  simp [h]

lemma forall_update {N : Nat} {t : Fin N → ThreadPhase} {i : Fin N}
    {q : ThreadPhase} (P : ThreadPhase → Prop) (hq : P q)
    (ht : ∀ j, P (t j)) (j : Fin N) : P (Function.update t i q j) := by
  by_cases hji : j = i
  · subst hji; rw [Function.update_same]; exact hq
  · rw [Function.update_noteq hji]; exact ht j

lemma sysInv_init (N : Nat) (h1 : 1 ≤ N) : SysInv (initSys N) := by
  have hready : ∀ p : ThreadPhase, ThreadPhase.ready ≠ p →
      nPhase (N := N) (fun _ => .ready) p = 0 := by
    intro p hp
    rw [nPhase_eq_sum]
    simp [hp]
  have hr : nPhase (N := N) (fun _ => .ready) .ready = N := by
    rw [nPhase_eq_sum]
    simp
  refine ⟨?_, ?_, rfl, rfl, Or.inl ⟨rfl, rfl, ?_, ?_, ?_, ?_, ?_⟩⟩
  · intro i c h
    exact absurd h (by simp [initSys])
  · intro i c h
    exact absurd h (by simp [initSys])
  · exact hready _ (by simp)
  · exact hready _ (by simp)
  · show MXUserBarrier.ctxCount (initBarrier N) 0
      = nPhase (N := N) (fun _ => .ready) (.parked 0)
    rw [hready _ (by simp)]
    rfl
  · show 1 ≤ nPhase (N := N) (fun _ => ThreadPhase.ready) ThreadPhase.ready
    rw [hr]; exact h1
  · show nPhase (N := N) (fun _ => ThreadPhase.ready) ThreadPhase.ready
      + nPhase (N := N) (fun _ => ThreadPhase.ready) (.parked 0) = N
    rw [hr, hready _ (by simp)]
    omega

lemma sysInv_step {N : Nat} (hN : N < UINT32_CARD) {s t : SysState N}
    (hs : SysInv s) (hstep : SysStep s t) : SysInv t := by
  obtain ⟨hPk, hWk, hcfg, hctx1, hphase⟩ := hs
  cases hstep with
  | arrivePark i hr ho =>
    have hphA : PhaseA s := by
      rcases hphase with h | h
      · exact h
      · have hpos := nPhase_pos hr
        rw [h.1] at hpos
        exact absurd hpos (by omega)
    obtain ⟨he, hcur, hw0, hd0, hcnt, hr1, hsum⟩ := hphA
    have hincr : incr32 (nPhase s.threads (.parked 0))
        = nPhase s.threads (.parked 0) + 1 := incr32_eq (by omega)
    have hptr : (MXUser_EnterBarrier_arrive s.barrier).ptr = 0 := by
      rw [arrive_ptr_normal s.barrier he, hcur]
    have hPN : ¬(nPhase s.threads (.parked 0) + 1 = N) := by
      intro heq
      have hoc := arrive_outcome_normal s.barrier he
      rw [hcur, hcnt, hincr, hcfg, if_pos heq] at hoc
      rw [hoc] at ho
      cases ho
    have hr2 : 2 ≤ nPhase s.threads .ready := by omega
    have hstate := arrive_state_normal s.barrier he
    rw [hcur, hcnt, hincr, hcfg] at hstate
    have hcR := nPhase_update s.threads i (ThreadPhase.parked 0) .ready
    have hcP := nPhase_update s.threads i (ThreadPhase.parked 0) (.parked 0)
    have hcW := nPhase_update s.threads i (ThreadPhase.parked 0) (.woken 0)
    have hcD := nPhase_update s.threads i (ThreadPhase.parked 0) .done
    rw [hr] at hcR hcP hcW hcD
    simp at hcR hcP hcW hcD
    simp only [arriveParkNext, hptr, SysInv, PhaseA, PhaseB]
    refine ⟨?_, ?_, ?_, ?_, Or.inl ⟨?_, ?_, ?_, ?_, ?_, ?_, ?_⟩⟩
    · intro j c hj
      exact forall_update (fun x => ∀ c, x = .parked c → c = 0)
        (by intro c hc; cases hc; rfl) (fun j' => hPk j') j c hj
    · intro j c hj
      exact forall_update (fun x => ∀ c, x = .woken c → c = 0)
        (by intro c hc; simp at hc) (fun j' => hWk j') j c hj
    · rw [hstate]
      simp [hcfg]
    · rw [hstate, ctxCount_withEmptying,
        ctxCount_setCount_other _ _ (by omega) (by omega) (by omega)]
      exact hctx1
    · rw [hstate]
      simpa using hPN
    · rw [hstate]
      simp [hcur]
    · omega
    · omega
    · rw [hstate, ctxCount_withEmptying, ctxCount_setCount_self]
      omega
    · omega
    · omega
  | arriveLast i hr ho =>
    have hphA : PhaseA s := by
      rcases hphase with h | h
      · exact h
      · have hpos := nPhase_pos hr
        rw [h.1] at hpos
        exact absurd hpos (by omega)
    obtain ⟨he, hcur, hw0, hd0, hcnt, hr1, hsum⟩ := hphA
    have hincr : incr32 (nPhase s.threads (.parked 0))
        = nPhase s.threads (.parked 0) + 1 := incr32_eq (by omega)
    have hptr : (MXUser_EnterBarrier_arrive s.barrier).ptr = 0 := by
      rw [arrive_ptr_normal s.barrier he, hcur]
    have hPN : nPhase s.threads (.parked 0) + 1 = N := by
      by_contra hne
      have hoc := arrive_outcome_normal s.barrier he
      rw [hcur, hcnt, hincr, hcfg, if_neg hne] at hoc
      rw [hoc] at ho
      cases ho
    have hstate := arrive_state_normal s.barrier he
    rw [hcur, hcnt, hincr, hcfg, hPN] at hstate
    have hnb0 : (MXUser_EnterBarrier_arrive s.barrier).state.ctxCount 0
        = N := by
      rw [hstate, ctxCount_withEmptying, ctxCount_setCount_self]
    have hnb1 : (MXUser_EnterBarrier_arrive s.barrier).state.ctxCount 1
        = 0 := by
      rw [hstate, ctxCount_withEmptying,
        ctxCount_setCount_other _ _ (by omega) (by omega) (by omega)]
      exact hctx1
    have hnbcur : (MXUser_EnterBarrier_arrive s.barrier).state.curContext
        = 0 := by
      rw [hstate]
      simp [hcur]
    have hnbcfg : (MXUser_EnterBarrier_arrive s.barrier).state.configCount
        = N := by
      rw [hstate]
      simp [hcfg]
    have hnbe : (MXUser_EnterBarrier_arrive s.barrier).state.emptying
        = true := by
      rw [hstate]
      simp
    have hdecr :
        decr32 ((MXUser_EnterBarrier_arrive s.barrier).state.ctxCount 0)
          = N - 1 := by
      rw [hnb0]
      exact decr32_eq (by omega)
    have hwR : nPhase (fun j => wakeOn 0 (s.threads j)) .ready
        = nPhase s.threads .ready := nPhase_wake_ready s.threads 0
    have hwP : nPhase (fun j => wakeOn 0 (s.threads j)) (.parked 0) = 0 :=
      nPhase_wake_parked s.threads 0
    have hwW : nPhase (fun j => wakeOn 0 (s.threads j)) (.woken 0)
        = nPhase s.threads (.woken 0) + nPhase s.threads (.parked 0) :=
      nPhase_wake_woken s.threads 0
    have hwD : nPhase (fun j => wakeOn 0 (s.threads j)) .done
        = nPhase s.threads .done := nPhase_wake_done s.threads 0
    have hui : wakeOn 0 (s.threads i) = ThreadPhase.ready := by
      rw [hr]
      rfl
    have hcR := nPhase_update (fun j => wakeOn 0 (s.threads j)) i
      ThreadPhase.done .ready
    have hcP := nPhase_update (fun j => wakeOn 0 (s.threads j)) i
      ThreadPhase.done (.parked 0)
    have hcW := nPhase_update (fun j => wakeOn 0 (s.threads j)) i
      ThreadPhase.done (.woken 0)
    rw [hui] at hcR hcP hcW
    simp at hcR hcP hcW
    have hpt : ∀ j c,
        Function.update (fun j => wakeOn 0 (s.threads j)) i ThreadPhase.done j
          = .parked c → c = 0 := by
      intro j c hj
      refine forall_update (fun x => ∀ c, x = .parked c → c = 0)
        (by intro c hc; simp at hc) ?_ j c hj
      intro j' c' hj'
      exact hPk j' c' (wakeOn_parked_inv hj').1
    have hwt : ∀ j c,
        Function.update (fun j => wakeOn 0 (s.threads j)) i ThreadPhase.done j
          = .woken c → c = 0 := by
      intro j c hj
      refine forall_update (fun x => ∀ c, x = .woken c → c = 0)
        (by intro c hc; simp at hc) ?_ j c hj
      intro j' c' hj'
      rcases wakeOn_woken_inv hj' with h' | ⟨h', hc'⟩
      · exact hWk j' c' h'
      · exact hc'
    simp only [arriveLastNext, hptr, SysInv, PhaseA, PhaseB]
    by_cases hN1 : N - 1 = 0
    · have hexit := exit_drained (MXUser_EnterBarrier_arrive s.barrier).state
        0 (by rw [hdecr]; exact hN1)
      refine ⟨hpt, hwt, ?_, ?_, Or.inr ⟨?_, ?_, ?_, ?_, ?_⟩⟩
      · rw [hexit]
        simp [hnbcfg]
      · rw [hexit, ctxCount_withEmptyingCur,
          ctxCount_setCount_other _ _ (by omega) (by omega) (by omega)]
        exact hnb1
      · omega
      · omega
      · rw [hexit, ctxCount_withEmptyingCur, ctxCount_setCount_self]
        omega
      · intro hz
        constructor
        · rw [hexit]
        · rw [hexit]
          simp [hnbcur]
      · intro hz
        exfalso
        omega
    · have hexit := exit_not_drained
        (MXUser_EnterBarrier_arrive s.barrier).state 0
        (by rw [hdecr]; exact hN1)
      rw [hdecr] at hexit
      refine ⟨hpt, hwt, ?_, ?_, Or.inr ⟨?_, ?_, ?_, ?_, ?_⟩⟩
      · rw [hexit]
        simp [hnbcfg]
      · rw [hexit,
          ctxCount_setCount_other _ _ (by omega) (by omega) (by omega)]
        exact hnb1
      · omega
      · omega
      · rw [hexit, ctxCount_setCount_self]
        omega
      · intro hz
        exfalso
        omega
      · intro hz
        constructor
        · rw [hexit]
          simp [hnbe]
        · rw [hexit]
          simp [hnbcur]
  | wakeExit i c hw =>
    obtain rfl : c = 0 := hWk i c hw
    have hphB : PhaseB s := by
      rcases hphase with h | h
      · have hpos := nPhase_pos hw
        rw [h.2.2.1] at hpos
        exact absurd hpos (by omega)
      · exact h
    obtain ⟨hR0, hP0, hcntB, hcond0, hcond1⟩ := hphB
    have hWpos : 1 ≤ nPhase s.threads (.woken 0) := nPhase_pos hw
    obtain ⟨hemB, hcurB⟩ := hcond1 (by omega)
    have hWle := nPhase_le s.threads (.woken 0)
    have hdecr : decr32 (s.barrier.ctxCount 0)
        = nPhase s.threads (.woken 0) - 1 := by
      rw [hcntB]
      exact decr32_eq (by omega)
    have hcR := nPhase_update s.threads i ThreadPhase.done .ready
    have hcP := nPhase_update s.threads i ThreadPhase.done (.parked 0)
    have hcW := nPhase_update s.threads i ThreadPhase.done (.woken 0)
    rw [hw] at hcR hcP hcW
    simp at hcR hcP hcW
    have hpt : ∀ j c,
        Function.update s.threads i ThreadPhase.done j = .parked c →
          c = 0 := by
      intro j c hj
      exact forall_update (fun x => ∀ c, x = .parked c → c = 0)
        (by intro c hc; simp at hc) (fun j' => hPk j') j c hj
    have hwt : ∀ j c,
        Function.update s.threads i ThreadPhase.done j = .woken c →
          c = 0 := by
      intro j c hj
      exact forall_update (fun x => ∀ c, x = .woken c → c = 0)
        (by intro c hc; simp at hc) (fun j' => hWk j') j c hj
    simp only [wakeExitNext, SysInv, PhaseA, PhaseB]
    by_cases hW1 : nPhase s.threads (.woken 0) - 1 = 0
    · have hexit := exit_drained s.barrier 0 (by rw [hdecr]; exact hW1)
      refine ⟨hpt, hwt, ?_, ?_, Or.inr ⟨?_, ?_, ?_, ?_, ?_⟩⟩
      · rw [hexit]
        simp [hcfg]
      · rw [hexit, ctxCount_withEmptyingCur,
          ctxCount_setCount_other _ _ (by omega) (by omega) (by omega)]
        exact hctx1
      · omega
      · omega
      · rw [hexit, ctxCount_withEmptyingCur, ctxCount_setCount_self]
        omega
      · intro hz
        constructor
        · rw [hexit]
        · rw [hexit]
          simp [hcurB]
      · intro hz
        exfalso
        omega
    · have hexit := exit_not_drained s.barrier 0 (by rw [hdecr]; exact hW1)
      rw [hdecr] at hexit
      refine ⟨hpt, hwt, ?_, ?_, Or.inr ⟨?_, ?_, ?_, ?_, ?_⟩⟩
      · rw [hexit]
        simp [hcfg]
      · rw [hexit,
          ctxCount_setCount_other _ _ (by omega) (by omega) (by omega)]
        exact hctx1
      · omega
      · omega
      · rw [hexit, ctxCount_setCount_self]
        omega
      · intro hz
        exfalso
        omega
      · intro hz
        constructor
        · rw [hexit]
          simp [hemB]
        · rw [hexit]
          simp [hcurB]

lemma reachable_inv {N : Nat} (h1 : 1 ≤ N) (hN : N < UINT32_CARD)
    {s : SysState N} (h : Reachable N s) : SysInv s := by
  induction h with
  | refl => exact sysInv_init N h1
  | tail hab hbc ih => exact sysInv_step hN ih hbc

lemma sys_progress {N : Nat} (h1 : 1 ≤ N) (hN : N < UINT32_CARD)
    {s : SysState N} (hreach : Reachable N s)
    (hnotdone : ¬ ∀ i, s.threads i = .done) : ∃ t, SysStep s t := by
  obtain ⟨hPk, hWk, hcfg, hctx1, hphase⟩ := reachable_inv h1 hN hreach
  rcases hphase with hA | hB
  · obtain ⟨j, hj⟩ := exists_phase hA.2.2.2.2.2.1
    cases ho : (MXUser_EnterBarrier_arrive s.barrier).outcome with
    | park => exact ⟨_, SysStep.arrivePark s j hj ho⟩
    | broadcast => exact ⟨_, SysStep.arriveLast s j hj ho⟩
  · obtain ⟨hR0, hP0, hcntB, hcond0, hcond1⟩ := hB
    by_cases hwz : nPhase s.threads (.woken 0) = 0
    · exfalso
      apply hnotdone
      intro j
      cases hx : s.threads j with
      | ready =>
        have := nPhase_pos hx
        rw [hR0] at this
        exact absurd this (by omega)
      | parked c =>
        obtain rfl : c = 0 := hPk j c hx
        have := nPhase_pos hx
        rw [hP0] at this
        exact absurd this (by omega)
      | woken c =>
        obtain rfl : c = 0 := hWk j c hx
        have := nPhase_pos hx
        rw [hwz] at this
        exact absurd this (by omega)
      | done => rfl
    · obtain ⟨j, hj⟩ := exists_phase (t := s.threads) (p := ThreadPhase.woken 0) (by omega)
      exact ⟨_, SysStep.wakeExit s j 0 hj⟩

lemma sysMeasure_decreases {N : Nat} {s t : SysState N} (h : SysStep s t) :
    sysMeasure t < sysMeasure s := by
  cases h with
  | arrivePark i hr ho =>
    have hu := sum_update_phase s.threads i
      (ThreadPhase.parked (MXUser_EnterBarrier_arrive s.barrier).ptr)
      phaseWeight
    rw [hr] at hu
    rw [show phaseWeight ThreadPhase.ready = 3 from rfl,
      show phaseWeight (ThreadPhase.parked
        (MXUser_EnterBarrier_arrive s.barrier).ptr) = 2 from rfl] at hu
    simp only [arriveParkNext, sysMeasure]
    omega
  | arriveLast i hr ho =>
    have hu := sum_update_phase
      (fun j => wakeOn (MXUser_EnterBarrier_arrive s.barrier).ptr
        (s.threads j)) i ThreadPhase.done phaseWeight
    have hui : wakeOn (MXUser_EnterBarrier_arrive s.barrier).ptr
        (s.threads i) = ThreadPhase.ready := by
      rw [hr]
      rfl
    rw [hui] at hu
    rw [show phaseWeight ThreadPhase.ready = 3 from rfl,
      show phaseWeight ThreadPhase.done = 0 from rfl] at hu
    have hle : (∑ j, phaseWeight
          (wakeOn (MXUser_EnterBarrier_arrive s.barrier).ptr (s.threads j)))
        ≤ ∑ j, phaseWeight (s.threads j) :=
      Finset.sum_le_sum (fun j _ => phaseWeight_wake_le _ _)
    simp only [arriveLastNext, sysMeasure]
    omega
  | wakeExit i c hw =>
    have hu := sum_update_phase s.threads i ThreadPhase.done phaseWeight
    rw [hw] at hu
    rw [show phaseWeight (ThreadPhase.woken c) = 1 from rfl,
      show phaseWeight ThreadPhase.done = 0 from rfl] at hu
    simp only [wakeExitNext, sysMeasure]
    omega

lemma sys_completion {N : Nat} (h1 : 1 ≤ N) (hN : N < UINT32_CARD) :
    ∀ s, Reachable N s →
      ∃ t, Relation.ReflTransGen SysStep s t ∧ ∀ i, t.threads i = .done := by
  have main : ∀ m, ∀ s, Reachable N s → sysMeasure s ≤ m →
      ∃ t, Relation.ReflTransGen SysStep s t ∧
        ∀ i, t.threads i = .done := by
    intro m
    induction m with
    | zero =>
      intro s hreach hm
      by_cases hdone : ∀ i, s.threads i = .done
      · exact ⟨s, Relation.ReflTransGen.refl, hdone⟩
      · obtain ⟨t, ht⟩ := sys_progress h1 hN hreach hdone
        have := sysMeasure_decreases ht
        omega
    | succ m ih =>
      intro s hreach hm
      by_cases hdone : ∀ i, s.threads i = .done
      · exact ⟨s, Relation.ReflTransGen.refl, hdone⟩
      · obtain ⟨t, ht⟩ := sys_progress h1 hN hreach hdone
        have hd := sysMeasure_decreases ht
        obtain ⟨u, hu, hud⟩ := ih t
          (Relation.ReflTransGen.tail hreach ht) (by omega)
        exact ⟨u, Relation.ReflTransGen.head ht hu, hud⟩
  intro s hreach
  exact main (sysMeasure s) s hreach le_rfl

/-! ## C4: liveness of an N-thread round -/

/-- C4: For every `N ≥ 1` (representable in the `uint32` party count), when
exactly `N` threads call `MXUser_EnterBarrier` on a fresh barrier with party
count `N`: (1) no thread has returned while some thread has not yet run its
arrival section — so no thread returns before the `N`-th thread has called
enter; (2) every step strictly decreases a finite measure, so every
execution is finite; (3) any reachable state from which no step is possible
has all threads returned — there is no deadlock, timeout, interruption, or
early-exit path; and (4) from every reachable state some interleaving
reaches the state where every thread has returned.  Together (2)-(4) say
every thread eventually returns in every maximal interleaving. -/
theorem barrier_round_liveness (N : Nat) (h1 : 1 ≤ N)
    (hN : N < UINT32_CARD) :
    (∀ s : SysState N, Reachable N s → ∀ i, s.threads i = .done →
      ∀ j, s.threads j ≠ .ready) ∧
    (∀ s t : SysState N, SysStep s t → sysMeasure t < sysMeasure s) ∧
    (∀ s : SysState N, Reachable N s → (∀ t, ¬ SysStep s t) →
      ∀ i, s.threads i = .done) ∧
    (∀ s : SysState N, Reachable N s →
      ∃ t, Relation.ReflTransGen SysStep s t ∧
        ∀ i, t.threads i = .done) := by
  refine ⟨?_, fun s t h => sysMeasure_decreases h, ?_, sys_completion h1 hN⟩
  · intro s hreach i hdone j hready
    obtain ⟨hPk, hWk, hcfg, hctx1, hphase⟩ := reachable_inv h1 hN hreach
    rcases hphase with hA | hB
    · have := nPhase_pos hdone
      rw [hA.2.2.2.1] at this
      exact absurd this (by omega)
    · have := nPhase_pos hready
      rw [hB.1] at this
      exact absurd this (by omega)
  · intro s hreach hstuck i
    by_cases hdone : ∀ j, s.threads j = .done
    · exact hdone i
    · obtain ⟨t, ht⟩ := sys_progress h1 hN hreach hdone
      exact absurd ht (hstuck t)

/-! ## Witnesses: each hypothesis discharged at a concrete input -/

/-- Witness for `enter_normal_arrival` at `sampleBarrier`. -/
theorem enter_normal_arrival_witness :
    sampleBarrier.emptying = false ∧
    ((MXUser_EnterBarrier_arrive sampleBarrier).ptr
        = sampleBarrier.curContext ∧
      (MXUser_EnterBarrier_arrive sampleBarrier).state.ctxCount
          sampleBarrier.curContext
        = incr32 (sampleBarrier.ctxCount sampleBarrier.curContext) ∧
      (incr32 (sampleBarrier.ctxCount sampleBarrier.curContext)
          = sampleBarrier.configCount →
        (MXUser_EnterBarrier_arrive sampleBarrier).state.emptying = true ∧
        (MXUser_EnterBarrier_arrive sampleBarrier).outcome = .broadcast) ∧
      (incr32 (sampleBarrier.ctxCount sampleBarrier.curContext)
          ≠ sampleBarrier.configCount →
        (MXUser_EnterBarrier_arrive sampleBarrier).state.emptying = false ∧
        (MXUser_EnterBarrier_arrive sampleBarrier).outcome = .park)) :=
  ⟨rfl, enter_normal_arrival sampleBarrier rfl⟩

/-- Witness for `enter_abnormal_arrival` at `sampleEmptying`. -/
theorem enter_abnormal_arrival_witness :
    (sampleEmptying.emptying = true ∧ sampleEmptying.curContext ≤ 1) ∧
    ((MXUser_EnterBarrier_arrive sampleEmptying).ptr
        = (sampleEmptying.curContext + 1) % 2 ∧
      (MXUser_EnterBarrier_arrive sampleEmptying).state.ctxCount
          ((sampleEmptying.curContext + 1) % 2)
        = incr32 (sampleEmptying.ctxCount
            ((sampleEmptying.curContext + 1) % 2)) ∧
      (MXUser_EnterBarrier_arrive sampleEmptying).outcome = .park ∧
      (MXUser_EnterBarrier_arrive sampleEmptying).state.ctxCount
          sampleEmptying.curContext
        = sampleEmptying.ctxCount sampleEmptying.curContext ∧
      (MXUser_EnterBarrier_arrive sampleEmptying).state.emptying
        = sampleEmptying.emptying ∧
      (MXUser_EnterBarrier_arrive sampleEmptying).state.curContext
        = sampleEmptying.curContext) :=
  ⟨⟨rfl, by decide⟩, enter_abnormal_arrival sampleEmptying rfl (by decide)⟩

/-- Witness for `enter_party_of_one` at `sampleSolo`. -/
theorem enter_party_of_one_witness :
    (sampleSolo.configCount = 1 ∧ sampleSolo.emptying = false ∧
      sampleSolo.ctxCount sampleSolo.curContext = 0) ∧
    ((MXUser_EnterBarrier_arrive sampleSolo).outcome = .broadcast ∧
      (MXUser_EnterBarrier_arrive sampleSolo).state.ctxCount
        sampleSolo.curContext = 1 ∧
      (MXUser_EnterBarrier_arrive sampleSolo).state.emptying = true ∧
      MXUser_EnterBarrier_exit (MXUser_EnterBarrier_arrive sampleSolo).state
          (MXUser_EnterBarrier_arrive sampleSolo).ptr
        = { sampleSolo with
            curContext := (sampleSolo.curContext + 1) % 2 }) :=
  ⟨⟨rfl, rfl, rfl⟩, enter_party_of_one sampleSolo rfl rfl rfl⟩

/-- Witness for `destroy_requires_empty` at `sampleBusy` (a context count is
nonzero, so the call takes the fatal path). -/
theorem destroy_requires_empty_witness :
    sampleBusy.header.signature = MXUSER_BARRIER_SIGNATURE ∧
    ((¬(sampleBusy.ctxCount 0 = 0 ∧ sampleBusy.ctxCount 1 = 0) →
        MXUser_DestroyBarrier (some sampleBusy)
          = ([.dumpAndPanic], some sampleBusy)) ∧
      (sampleBusy.ctxCount 0 = 0 ∧ sampleBusy.ctxCount 1 = 0 →
        MXUser_DestroyBarrier (some sampleBusy)
          = ([.destroyCondVar0, .destroyCondVar1, .destroyLock,
              .clearSignature, .freeName, .freeBarrier], none))) :=
  ⟨rfl, destroy_requires_empty sampleBusy rfl⟩

/-- Witness for `barrier_round_liveness` at `N = 2`. -/
theorem barrier_round_liveness_witness :
    (1 ≤ 2 ∧ 2 < UINT32_CARD) ∧
    ((∀ s : SysState 2, Reachable 2 s → ∀ i, s.threads i = .done →
        ∀ j, s.threads j ≠ .ready) ∧
      (∀ s t : SysState 2, SysStep s t → sysMeasure t < sysMeasure s) ∧
      (∀ s : SysState 2, Reachable 2 s → (∀ t, ¬ SysStep s t) →
        ∀ i, s.threads i = .done) ∧
      (∀ s : SysState 2, Reachable 2 s →
        ∃ t, Relation.ReflTransGen SysStep s t ∧
          ∀ i, t.threads i = .done)) :=
  ⟨⟨by decide, by decide⟩, barrier_round_liveness 2 (by decide) (by decide)⟩

/-- Witness for `singleton_install_once` at party count 1 with an initially
empty cell. -/
theorem singleton_install_once_witness :
    1 ≤ 1 ∧
    ((∀ b, (none : Option MXUserBarrier) = some b →
        MXUser_CreateSingletonBarrier none none none none 0 1 true true true
          = { returned := some b, cellAfter := some b, constructed := false,
              destroyEvents := [] }) ∧
      ((none : Option MXUserBarrier) = none →
        (MXUser_CreateSingletonBarrier none none none none 0 1 true true
            true).constructed = true ∧
        ((none : Option MXUserBarrier) = none →
          MXUser_CreateSingletonBarrier none none none none 0 1 true true
              true
            = { returned := some (freshBarrier none 0 1),
                cellAfter := some (freshBarrier none 0 1),
                constructed := true, destroyEvents := [] }) ∧
        (∀ w, (none : Option MXUserBarrier) = some w →
          MXUser_CreateSingletonBarrier none none none none 0 1 true true
              true
            = { returned := some w, cellAfter := some w,
                constructed := true,
                destroyEvents := [.destroyCondVar0, .destroyCondVar1,
                  .destroyLock, .clearSignature, .freeName,
                  .freeBarrier] }))) :=
  ⟨by decide, singleton_install_once none 0 1 none none none (by decide)⟩

/-- Witness for `singleton_create_fail`: the lock allocation fails. -/
theorem singleton_create_fail_witness :
    (MXUser_CreateBarrier none 0 1 false true true).2 = none ∧
    MXUser_CreateSingletonBarrier none none none none 0 1 false true true
      = { returned := none, cellAfter := none, constructed := true,
          destroyEvents := [] } :=
  ⟨rfl, singleton_create_fail none 0 1 false true true rfl⟩

/-- Witness for `enter_exit_handoff` at `sampleBusy`, context 0 (the
decrement drains the context, so the handoff fires). -/
theorem enter_exit_handoff_witness :
    (MXUser_EnterBarrier_exit sampleBusy 0).ctxCount 0
      = decr32 (sampleBusy.ctxCount 0) ∧
    (decr32 (sampleBusy.ctxCount 0) = 0 ↔
      (MXUser_EnterBarrier_exit sampleBusy 0).emptying = false ∧
      (MXUser_EnterBarrier_exit sampleBusy 0).curContext
        = (sampleBusy.curContext + 1) % 2) ∧
    (decr32 (sampleBusy.ctxCount 0) ≠ 0 →
      (MXUser_EnterBarrier_exit sampleBusy 0).curContext
        = sampleBusy.curContext ∧
      (MXUser_EnterBarrier_exit sampleBusy 0).emptying
        = sampleBusy.emptying) ∧
    (MXUser_EnterBarrier_arrive sampleBusy).state.curContext
      = sampleBusy.curContext :=
  enter_exit_handoff sampleBusy 0

/-- Witness for `create_contract` at party count 2 with all allocations
succeeding. -/
theorem create_contract_witness :
    (2 = 0 →
      MXUser_CreateBarrier none 0 2 true true true = ([.assertFail], none)) ∧
    (1 ≤ 2 →
      (true = true → true = true → true = true →
        ∃ b, (MXUser_CreateBarrier none 0 2 true true true).2 = some b ∧
          b.configCount = 2 ∧ b.emptying = false ∧ b.curContext = 0 ∧
          b.ctxCount 0 = 0 ∧ b.ctxCount 1 = 0 ∧
          b.header.signature = MXUSER_BARRIER_SIGNATURE) ∧
      ((true = false ∨ true = false ∨ true = false) →
        (MXUser_CreateBarrier none 0 2 true true true).2 = none ∧
        BalancedTrace (MXUser_CreateBarrier none 0 2 true true true).1)) :=
  create_contract none 0 2 true true true
